import Mathlib

/-
Verification development for the spark build system.

This file gives a shallow embedding of the two core subsystems of the
repository — the build-process scheduler (src/spark/builder/BuildProcessExecutor.py)
and the signed build cache (src/spark/cache/SparkCacheFile.py together with
src/spark/cache/crypto.py and src/spark/__init__.py) — and proves or refutes the
frozen specification claims about them.

Modelling conventions:
- Python byte strings are modelled as List Nat (one entry per byte; byte-range
  bounds are irrelevant to every claim, which only concern lengths, slicing and
  structural equality).
- Fallible Python code (raised exceptions, sys.exit) is modelled with Except PyErr.
- The filesystem, the OS keyring and the system clock are modelled by an explicit
  Env record threaded through every operation.
- The deque of pending subcommands is modelled by a plain list whose HEAD is the
  RIGHT end of the Python deque: deque.appendleft (submit) appends at the list
  tail and deque.pop (start) takes the list head.  Both orientations are
  isomorphic; this one makes the oldest pending subcommand the list head.
-/

namespace Spark

/-- Python exceptions and interpreter exits that the modelled code can raise. -/
inductive PyErr where
  | fileNotFound
  | valueError
  | unpicklingError
  | systemExit (code : Nat)
deriving DecidableEq

/-- Modelled from the spec: the spark.codes module is referenced throughout src/
(spark/cache/SparkCacheFile.py line 90, spark/builder/BuildProcessExecutor.py
lines 36 and 131, spark/lib/tee.py line 6) but its definition is not under src/.
The spec (section 6) requires "distinct, stable numeric exit codes" for:
declaration file unavailable, unsupported runtime, subcommand launch failure,
generic subcommand failure, and the tee helper missing its log argument.  We
model them as distinct nonzero naturals. -/
def EXIT_SPARKFILE_UNAVAILABLE : Nat := 1

/-- Modelled from the spec: dedicated exit code for an unsupported runtime. -/
def EXIT_UNSUPPORTED_PYTHON_VERSION : Nat := 2

/-- Modelled from the spec: dedicated exit code for a subcommand launch failure
(the OS refuses to create the child process). -/
def EXIT_NO_SUCH_SUBCOMMAND : Nat := 3

/-- Modelled from the spec: dedicated exit code for a generic subcommand failure. -/
def EXIT_SUBCOMMAND_FAILED : Nat := 4

/-- Modelled from the spec: dedicated exit code for the tee helper missing its
log-file argument. -/
def EXIT_TEE_NO_LOGFILE : Nat := 5

/- ----------------------------------------------------------------------------
Serialization model.

Modelled from the spec: the payload serializer is Python's standard pickle
module, which is not part of src/.  The spec (sections 3 and 9) treats the
payload as "opaque serialized bytes" produced from structured values, with
structural equality after a round trip.  We model serializable values by a small
inductive type and pickle by an injective, self-delimiting encoding whose
decoder ignores trailing bytes — exactly as pickle.loads stops at the STOP
opcode and ignores what follows.
---------------------------------------------------------------------------- -/

/-- Serializable values: numbers, flat arrays of numbers, and string-keyed
mappings (keys abstracted to numbers). -/
inductive SValue where
  | num : Nat → SValue
  | arr : List Nat → SValue
  | dict : List (Nat × Nat) → SValue
deriving DecidableEq

/-- Flattens a list of key-value pairs into an alternating byte sequence. -/
def encPairs : List (Nat × Nat) → List Nat
  | [] => []
  | (a, b) :: rest => a :: b :: encPairs rest

/-- Rebuilds key-value pairs from an alternating byte sequence. -/
def decPairs : List Nat → List (Nat × Nat)
  | a :: b :: rest => (a, b) :: decPairs rest
  | _ => []

/-- Modelled from the spec: pickle.dumps — a tagged, length-delimited injective
encoding of a serializable value into bytes. -/
def pdumps : SValue → List Nat
  | .num n => [0, n]
  | .arr xs => 1 :: xs.length :: xs
  | .dict ps => 2 :: ps.length :: encPairs ps

/-- Modelled from the spec: pickle.loads — decodes one value from the front of
the byte sequence and ignores any trailing bytes; returns none on a malformed
stream (an UnpicklingError in Python). -/
def ploads (bs : List Nat) : Option SValue :=
  match bs with
  | 0 :: n :: _ => some (.num n)
  | 1 :: len :: rest =>
      if len ≤ rest.length then some (.arr (rest.take len)) else none
  | 2 :: len :: rest =>
      if 2 * len ≤ rest.length then some (.dict (decPairs (rest.take (2 * len)))) else none
  | _ => none

/- ----------------------------------------------------------------------------
Signature engine model.

Modelled from the spec: src/spark/cache/crypto.py delegates all cryptographic
primitives to the external cryptography library, which is not part of src/.
The spec (section 4.4) fixes the observable contract: 4096-bit RSA keys, a
fixed 512-byte signature, PEM-encoded public keys, verification succeeding
exactly for a matching (payload, signature, key) triple and raising
InvalidSignature otherwise, and load_pem_public_key raising a ValueError on
structurally malformed key bytes.  Private keys are modelled by a numeric key
identifier; a signature deterministically encodes the key identifier and a
digest of the payload.
---------------------------------------------------------------------------- -/

/-- Modelled from the spec: crypto.SIGNATURE_SIZE_BYTES is referenced by
src/spark/cache/SparkCacheFile.py (lines 120-121) and the tests, but the
constant itself is absent from src/spark/cache/crypto.py.  Spec sections 3, 4.4
and 6 fix it: "signature (fixed 512 bytes)". -/
def SIGNATURE_SIZE_BYTES : Nat := 512

/-- Digest of a byte payload used by the modelled signature scheme. -/
def byteHash (p : List Nat) : Nat :=
  p.foldl (fun a b => a * 131 + b + 1) 7

/-- Modelled from the spec: crypto.sign — a deterministic signature of fixed
512-byte size binding the private key and a digest of the payload. -/
def sign (payload : List Nat) (k : Nat) : List Nat :=
  byteHash payload :: k :: List.replicate 510 0

/-- Modelled from the spec: the PEM encoding of the public key matching private
key identifier k. -/
def pubKeyBytesOf (k : Nat) : List Nat := [80, 69, 77, k]

/-- Modelled from the spec: load_pem_public_key — recovers the key from
well-formed PEM bytes and fails (a Python ValueError) on anything else. -/
def loadPemPublicKey (b : List Nat) : Option Nat :=
  match b with
  | [80, 69, 77, k] => some k
  | _ => none

/-- Embedding of crypto.verify (src/spark/cache/crypto.py lines 80-101): the
try block loads the PEM public key and checks the signature; the except clause
catches ONLY InvalidSignature (returning False).  A ValueError raised by
load_pem_public_key on malformed key bytes is not caught and propagates. -/
def verify (payload signature public_key : List Nat) : Except PyErr Bool :=
  match loadPemPublicKey public_key with
  | none => .error .valueError
  | some k => .ok (signature = sign payload k : Bool)

/- ----------------------------------------------------------------------------
The signed build cache: embedding of src/spark/cache/SparkCacheFile.py and of
the declaration-source list src/spark/__init__.py.
---------------------------------------------------------------------------- -/

/-- One build declaration file as found on disk: its parsed TOML mapping
(string keys and TOML values abstracted to numbers) and its modification time. -/
structure Decl where
  content : List (Nat × Nat)
  mtime : Nat
deriving DecidableEq

/-- The external world the cache operations interact with: the four declaration
sources, the OS keyring entry for the private key, the persisted public-key
file, the on-disk cache file with its modification time, the key identifier a
fresh key generation would produce, and the current clock reading stamped onto
the cache file by a write. -/
structure Env where
  sparkToml : Option Decl
  patchToml : Option Decl
  userPrefs : Option Decl
  sysEnv : Option Decl
  keyringPriv : Option Nat
  pubKeyFile : Option (List Nat)
  cacheFile : Option (List Nat)
  cacheMtime : Nat
  freshKey : Nat
  now : Nat
deriving DecidableEq

/-- Embedding of SPARK_BUILD_DECLARATION_FILES (src/spark/__init__.py lines
5-8): the declaration sources in file order — system environment, user
preferences, project patch, project file. -/
def SPARK_BUILD_DECLARATION_FILES (e : Env) : List (Option Decl) :=
  [e.sysEnv, e.userPrefs, e.patchToml, e.sparkToml]

/-- The in-memory fields of a SparkCacheFile object (constructor, lines 40-48). -/
structure CState where
  cache : List Nat
  clear : Bool
  signature : List Nat
  public_key_bytes : List Nat
  opened : Bool
deriving DecidableEq

/-- A freshly constructed SparkCacheFile (lines 40-48). -/
def initCState (clear : Bool) : CState :=
  { cache := [], clear := clear, signature := [], public_key_bytes := [], opened := false }

/-- Lookup in a Python dict modelled as an association list (first match). -/
def dictLookup (d : List (Nat × Nat)) (k : Nat) : Option Nat :=
  match d with
  | [] => none
  | (k0, v) :: rest => if k = k0 then some v else dictLookup rest k

/-- Inserting one key-value pair into a Python dict: an existing key keeps its
position but receives the new value; a new key is appended at the end. -/
def dictInsert (d : List (Nat × Nat)) (kv : Nat × Nat) : List (Nat × Nat) :=
  if d.any (fun p => p.1 = kv.1) then
    d.map (fun p => if p.1 = kv.1 then (p.1, kv.2) else p)
  else
    d ++ [kv]

/-- Python dict unpacking as used on line 97 of SparkCacheFile.py: the merge of
two dicts in which entries of the second overwrite entries of the first. -/
def pyMerge (a b : List (Nat × Nat)) : List (Nat × Nat) :=
  b.foldl dictInsert a

/-- Embedding of the merge loop of SparkCacheFile.regenerate (lines 91-97):
starting from the empty dict, each existing declaration source — iterated in
SPARK_BUILD_DECLARATION_FILES file order — is parsed and merged with the
running dict taking precedence for the keys it defines. -/
def regenerateBuild (e : Env) : List (Nat × Nat) :=
  (SPARK_BUILD_DECLARATION_FILES e).foldl
    (fun build d =>
      match d with
      | none => build
      | some decl => pyMerge build decl.content)
    []

/-- Tail of SparkCacheFile.sync (lines 79-82) once the private key k is in
hand: sign the in-memory payload and overwrite the cache file with the
signature followed by the payload. -/
def syncWith (e : Env) (s : CState) (k : Nat) : Env × CState :=
  let s1 := { s with signature := sign s.cache k }
  ({ e with cacheFile := some (s1.signature ++ s1.cache), cacheMtime := e.now }, s1)

/-- Embedding of SparkCacheFile.sync (lines 69-82): fetch the private key from
the keyring, regenerating and re-persisting the whole key pair when the keyring
entry is missing, then sign and write the file. -/
def syncC (e : Env) (s : CState) : Env × CState :=
  match e.keyringPriv with
  | none =>
      let k := e.freshKey
      let e1 := { e with keyringPriv := some k, pubKeyFile := some (pubKeyBytesOf k) }
      syncWith e1 s k
  | some k => syncWith e s k

/-- The in-memory state regenerate produces before syncing (lines 98-99 of
SparkCacheFile.py): the payload is the serialized merged mapping and the cache
is marked open. -/
def regenerateTarget (e : Env) (s : CState) : CState :=
  { s with cache := pdumps (SValue.dict (regenerateBuild e)), opened := true }

/-- Embedding of SparkCacheFile.regenerate (lines 84-100): exit with
EXIT_SPARKFILE_UNAVAILABLE when Spark.toml is absent, otherwise merge the
existing declaration sources, serialize the merged mapping into the in-memory
payload, mark the cache open and sync. -/
def regenerateC (e : Env) (s : CState) : Except PyErr (Env × CState) :=
  match e.sparkToml with
  | none => .error (.systemExit EXIT_SPARKFILE_UNAVAILABLE)
  | some _ => .ok (syncC e (regenerateTarget e s))

/-- Embedding of SparkCacheFile.__load_public_key (lines 56-67): generate and
persist a fresh key pair when the public-key file is absent (overwriting the
keyring entry), otherwise read the persisted public-key bytes. -/
def loadPublicKey (e : Env) : Env × List Nat :=
  match e.pubKeyFile with
  | none =>
      let k := e.freshKey
      ({ e with keyringPriv := some k, pubKeyFile := some (pubKeyBytesOf k) }, pubKeyBytesOf k)
  | some b => (e, b)

/-- Tells whether some existing declaration source was modified after the cache
file (the loop on lines 112-117 of SparkCacheFile.open). -/
def declStale (e : Env) : Bool :=
  (SPARK_BUILD_DECLARATION_FILES e).any
    (fun d =>
      match d with
      | none => false
      | some decl => decl.mtime > e.cacheMtime)

/-- Embedding of SparkCacheFile.open (lines 102-124): mark opened, load the
public key, regenerate when the cache file is absent, return immediately when
the clear flag is set, regenerate when some declaration source is newer than
the cache file, otherwise split the file at SIGNATURE_SIZE_BYTES into signature
and payload and regenerate only if verification fails.  A ValueError raised by
verification on malformed public-key bytes propagates. -/
def openC (e : Env) (s : CState) : Except PyErr (Env × CState) :=
  let s1 := { s with opened := true }
  let ep := loadPublicKey e
  let s2 := { s1 with public_key_bytes := ep.2 }
  match ep.1.cacheFile with
  | none => regenerateC ep.1 s2
  | some contents =>
      if s2.clear then .ok (ep.1, s2)
      else if declStale ep.1 then regenerateC ep.1 s2
      else
        let s3 := { s2 with
          signature := contents.take SIGNATURE_SIZE_BYTES,
          cache := contents.drop SIGNATURE_SIZE_BYTES }
        match verify s3.cache s3.signature s3.public_key_bytes with
        | .error err => .error err
        | .ok true => .ok (ep.1, s3)
        | .ok false => regenerateC ep.1 s3

/-- Embedding of SparkCacheFile.close (lines 126-128): sync, then mark closed. -/
def closeC (e : Env) (s : CState) : Env × CState :=
  let es := syncC e s
  (es.1, { es.2 with opened := false })

/-- Embedding of SparkCacheFile.is_cached (lines 130-139): open on demand, then
verify the in-memory payload against its stored signature; on success return
true, on verification failure delete the on-disk cache file and return false —
where os.remove raises an uncaught FileNotFoundError when the file is already
absent. -/
def isCachedC (e : Env) (s : CState) : Except PyErr (Env × CState × Bool) :=
  match (if s.opened then Except.ok (e, s) else openC e s) with
  | .error err => .error err
  | .ok (e1, s1) =>
      match verify s1.cache s1.signature s1.public_key_bytes with
      | .error err => .error err
      | .ok true => .ok (e1, s1, true)
      | .ok false =>
          match e1.cacheFile with
          | none => .error .fileNotFound
          | some _ => .ok ({ e1 with cacheFile := none }, s1, false)

/-- Embedding of SparkCacheFile.write (lines 141-148): replace the whole
in-memory payload with the serialized data. -/
def writeC (s : CState) (x : SValue) : CState :=
  { s with cache := pdumps x }

/-- Embedding of SparkCacheFile.append (lines 150-160): serialize the data,
append it to the in-memory payload, and return the appended length. -/
def appendC (s : CState) (x : SValue) : Nat × CState :=
  let provision := pdumps x
  (provision.length, { s with cache := s.cache ++ provision })

/-- Embedding of SparkCacheFile.read (lines 162-178): raise FileNotFoundError
when not opened; regenerate when the backing file is absent; call is_cached
(side effects included), and when it holds and a size was given deserialize
only the slice [offset, offset+size) of the payload, otherwise deserialize the
whole payload. -/
def readC (e : Env) (s : CState) (size : Option Nat) (offset : Nat) :
    Except PyErr (Env × CState × SValue) :=
  if ¬ s.opened then .error .fileNotFound
  else
    match (if e.cacheFile = none then regenerateC e s else .ok (e, s)) with
    | .error err => .error err
    | .ok (e1, s1) =>
        match isCachedC e1 s1 with
        | .error err => .error err
        | .ok (e2, s2, cached) =>
            match cached, size with
            | true, some sz =>
                match ploads ((s2.cache.drop offset).take sz) with
                | some v => .ok (e2, s2, v)
                | none => .error .unpicklingError
            | _, _ =>
                match ploads s2.cache with
                | some v => .ok (e2, s2, v)
                | none => .error .unpicklingError

/-- Embedding of SparkCacheFile.get_cache_size (lines 180-182). -/
def getCacheSize (s : CState) : Nat := s.cache.length


/- ----------------------------------------------------------------------------
Specification-side definitions and predicates for the cache claims.
---------------------------------------------------------------------------- -/

/-- First-of-two option choice, used to phrase lookup precedence. -/
def orO : Option Nat → Option Nat → Option Nat
  | some v, _ => some v
  | none, b => b

/-- Lookup of a key in one optional declaration source. -/
def declLookup (o : Option Decl) (q : Nat) : Option Nat :=
  match o with
  | none => none
  | some d => dictLookup d.content q

/-- Lookup across a list of declaration sources in which a LATER source wins
(the observable semantics of folding Python dict unpacking over the list). -/
def sourcesLookup : List (Option Decl) → Nat → Option Nat
  | [], _ => none
  | o :: rest, q => orO (sourcesLookup rest q) (declLookup o q)

/-- Written from the words of the spec, for the refinement claim about regenerate():
merge all existing declaration sources in fixed precedence order (project
file, project patch override, user preferences, system environment) using
first-seen-wins, so that the merged value of a key is its value in the first
source of that precedence order that defines it, and a key already present
from a higher-precedence source is never overwritten by a lower-precedence
one. -/
def specMergeLookup (e : Env) (q : Nat) : Option Nat :=
  orO (declLookup e.sparkToml q)
    (orO (declLookup e.patchToml q)
      (orO (declLookup e.userPrefs q) (declLookup e.sysEnv q)))

/-- A dict whose keys are pairwise distinct, as tomllib guarantees for a parsed
TOML document. -/
def KeysNodup (d : List (Nat × Nat)) : Prop := (d.map Prod.fst).Nodup

/-- The persisted key material is coherent: whenever the keyring holds a
private key, the public-key file is either absent or holds the matching public
counterpart. -/
def keyConsistent (e : Env) : Prop :=
  ∀ k, e.keyringPriv = some k →
    e.pubKeyFile = none ∨ e.pubKeyFile = some (pubKeyBytesOf k)

/-- The persisted public-key file is present and matches the keyring private
key whenever the latter exists. -/
def keyMatched (e : Env) : Prop :=
  ∀ k, e.keyringPriv = some k → e.pubKeyFile = some (pubKeyBytesOf k)

/-- The on-disk cache file splits at byte SIGNATURE_SIZE_BYTES into a signature
that verifies over the remaining bytes under the persisted public key. -/
def wellSignedFile (e : Env) : Prop :=
  ∃ f pb, e.cacheFile = some f ∧ e.pubKeyFile = some pb ∧
    verify (f.drop SIGNATURE_SIZE_BYTES) (f.take SIGNATURE_SIZE_BYTES) pb = Except.ok true

/-- A concrete environment used by witnesses and counterexamples: the project
file exists and is empty, the persisted key pair is the pair of key 1, and no
cache file exists yet. -/
def baseEnv : Env :=
  { sparkToml := some ⟨[], 0⟩, patchToml := none, userPrefs := none, sysEnv := none,
    keyringPriv := some 1, pubKeyFile := some (pubKeyBytesOf 1),
    cacheFile := none, cacheMtime := 0, freshKey := 9, now := 0 }

/-- A concrete baseline payload. -/
def demoPayload : List Nat := pdumps (SValue.num 1)

/-- The concrete environment after a successful open of a valid cache file
holding demoPayload signed by key 1. -/
def demoEnv : Env :=
  { baseEnv with cacheFile := some (sign demoPayload 1 ++ demoPayload) }

/-- The concrete in-memory state after that open: payload, matching signature
and public key loaded, cache opened. -/
def demoState : CState :=
  { cache := demoPayload, clear := false, signature := sign demoPayload 1,
    public_key_bytes := pubKeyBytesOf 1, opened := true }

/- ----------------------------------------------------------------------------
The job scheduler: embedding of src/spark/builder/BuildProcessExecutor.py.

A subcommand is its argv, with the individual argument strings abstracted to
numbers.  The spawn behaviour of the OS is an oracle mapping the attempt index
to either a fresh process id or none (subprocess.Popen raising OSError); the
reaping behaviour of os.waitpid(-1, 0) is an oracle choosing which running
child exits next together with an oracle giving each process id its raw wait
status.
---------------------------------------------------------------------------- -/

/-- A subcommand: the argv list, strings abstracted to numbers. -/
def Subcommand := List Nat
deriving DecidableEq

/-- The mutable fields of a BuildProcessExecutor (constructor, lines 44-61).
The pending deque is a list whose head is the deque's right end, so that
deque.appendleft appends at the list tail and deque.pop takes the head; the
running dict is the list of its process-id keys in insertion order. -/
structure BExec where
  total : Nat
  jobs : Nat
  load_average : ℚ
  processes : List Nat
  subcommands : List Subcommand
  running_jobs : Nat
  counter : Nat
deriving DecidableEq

/-- A freshly constructed BuildProcessExecutor (lines 44-61): no running
processes, no pending subcommands, running_jobs initialised to jobs and the
counter to zero. -/
def mkBExec (total jobs : Nat) (load_average : ℚ) : BExec :=
  { total := total, jobs := jobs, load_average := load_average,
    processes := [], subcommands := [], running_jobs := jobs, counter := 0 }

/-- Embedding of BuildProcessExecutor.submit (lines 90-99): appendleft on the
pending deque. -/
def submit (s : BExec) (cmd : Subcommand) : BExec :=
  { s with subcommands := s.subcommands ++ [cmd] }

/-- Submits a batch of subcommands in order. -/
def submitAll (s : BExec) (cmds : List Subcommand) : BExec :=
  cmds.foldl submit s

/-- Embedding of BuildProcessExecutor.progress (lines 101-103). -/
def progress (s : BExec) : Nat × Nat := (s.counter, s.total)

/-- Embedding of BuildProcessExecutor.is_work_complete (lines 105-107). -/
def isWorkComplete (s : BExec) : Bool :=
  s.processes.isEmpty && s.subcommands.isEmpty

/-- Embedding of spark.lib.perror (src/spark/lib/__init__.py lines 7-21):
writes the message to standard error and, when the code is nonzero, exits the
interpreter with it (returning some code means sys.exit(code) was raised). -/
def perror (code : Nat) : Option Nat :=
  if code ≠ 0 then some code else none

/-- Embedding of BuildProcessExecutor.shutdown (lines 157-167): discard all
pending subcommands, terminate and reap every running child, clear the
bookkeeping. -/
def shutdown (s : BExec) : BExec :=
  { s with subcommands := [], processes := [] }

/-- Inserting a key into the running-process dict (line 129): an existing key
is overwritten in place, a fresh one is appended. -/
def dictInsertPid (ps : List Nat) (pid : Nat) : List Nat :=
  if pid ∈ ps then ps else ps ++ [pid]

/-- Outcome of one call to BuildProcessExecutor.start: the resulting executor
state, the progress lines printed (counter value and subcommand, in spawn
order), the interpreter exit raised by perror if a launch failed, and whether
the shutdown() call on line 132 was actually reached. -/
structure StartResult where
  state : BExec
  log : List (Nat × Subcommand)
  exited : Option Nat
  shutdownRan : Bool
deriving DecidableEq

/-- The spawn loop of BuildProcessExecutor.start (lines 123-132): repeat k
times — increment the counter, pop the oldest pending subcommand, print the
progress line, launch the process via the spawn oracle and record its process
id.  When the oracle refuses (subprocess.Popen raising OSError), the except
clause calls perror with EXIT_NO_SUCH_SUBCOMMAND: if perror exits, the
SystemExit propagates and the shutdown() call on the following line is never
reached; only if perror were to return would shutdown() run. -/
def startLoop (spawn : Nat → Option Nat) : Nat → Nat → BExec → List (Nat × Subcommand) → StartResult
  | 0, _, s, log => ⟨s, log, none, false⟩
  | k + 1, i, s, log =>
      let s1 := { s with counter := s.counter + 1 }
      match s1.subcommands with
      | [] => ⟨s1, log, none, false⟩
      | cmd :: rest =>
          let s2 := { s1 with subcommands := rest }
          let log1 := log ++ [(s2.counter, cmd)]
          match spawn i with
          | some pid =>
              startLoop spawn k (i + 1) { s2 with processes := dictInsertPid s2.processes pid } log1
          | none =>
              match perror EXIT_NO_SUCH_SUBCOMMAND with
              | some c => ⟨s2, log1, some c, false⟩
              | none => ⟨shutdown s2, log1, none, true⟩

/-- Line 117 of BuildProcessExecutor.start: running_jobs is 1 when the fresh
load-average sample exceeds the configured threshold, the configured job count
otherwise. -/
def liveCeiling (loadavg : ℚ) (s : BExec) : Nat :=
  if loadavg > s.load_average then 1 else s.jobs

/-- Lines 119-122 of BuildProcessExecutor.start: the vacant-slot difference
running_jobs - len(processes) (a possibly negative Python int), capped at the
number of queued subcommands. -/
def additionalBuilderJobs (loadavg : ℚ) (s : BExec) : ℤ :=
  if (liveCeiling loadavg s : ℤ) - (s.processes.length : ℤ) ≤ (s.subcommands.length : ℤ)
  then (liveCeiling loadavg s : ℤ) - (s.processes.length : ℤ)
  else (s.subcommands.length : ℤ)

/-- Embedding of BuildProcessExecutor.start (lines 109-132): return immediately
when more processes are running than jobs; otherwise sample the load average,
set running_jobs from it, and run the spawn loop for the computed number of
additional builder jobs (range over a negative count spawning nothing). -/
def start (spawn : Nat → Option Nat) (loadavg : ℚ) (s : BExec) : StartResult :=
  if s.processes.length > s.jobs then ⟨s, [], none, false⟩
  else
    startLoop spawn (additionalBuilderJobs loadavg s).toNat 0
      { s with running_jobs := liveCeiling loadavg s } []

/-- The reaping loop of BuildProcessExecutor.as_completed (lines 137-150),
fuelled by the running-process count: while processes remain, os.waitpid picks
one exiting child (the sched oracle chooses which, the status oracle gives its
raw wait status), the status is shifted right by 8 bits into an exit code, the
process is removed from the running dict, and the pair is yielded. -/
def reapAll (sched status : Nat → Nat) :
    Nat → Nat → BExec → List (Nat × Nat) → List (Nat × Nat) × BExec
  | 0, _, s, acc => (acc, s)
  | fuel + 1, t, s, acc =>
      match s.processes with
      | [] => (acc, s)
      | p :: ps =>
          let idx := sched t % (p :: ps).length
          let pid := (p :: ps).get ⟨idx, Nat.mod_lt _ (Nat.succ_pos ps.length)⟩
          let s1 := { s with processes := s.processes.erase pid }
          reapAll sched status fuel (t + 1) s1 (acc ++ [(pid, status pid / 256)])

/-- Embedding of BuildProcessExecutor.as_completed (lines 134-150), iterated to
exhaustion: one call to start() before the loop (a SystemExit raised there
propagates), then reap-and-yield until the running dict is empty.  Note that
start() is called once for the whole sequence, not once per pull. -/
def asCompleted (spawn : Nat → Option Nat) (sched status : Nat → Nat) (loadavg : ℚ)
    (s : BExec) : Except PyErr (List (Nat × Nat) × BExec) :=
  let r := start spawn loadavg s
  match r.exited with
  | some c => .error (.systemExit c)
  | none => .ok (reapAll sched status r.state.processes.length 0 r.state [])

/- ----------------------------------------------------------------------------
Serialization and signature lemmas.
---------------------------------------------------------------------------- -/

theorem encPairs_length (ps : List (Nat × Nat)) : (encPairs ps).length = 2 * ps.length := by
  induction ps with
  | nil => rfl
  | cons p rest ih => simp [encPairs, ih]; ring

theorem decPairs_encPairs (ps : List (Nat × Nat)) : decPairs (encPairs ps) = ps := by
  induction ps with
  | nil => rfl
  | cons p rest ih => simp [encPairs, decPairs, ih]

theorem take_length_append (xs ys : List Nat) : (xs ++ ys).take xs.length = xs := by
  induction xs with
  | nil => rfl
  | cons x rest ih => simp [ih]

theorem drop_length_append (xs ys : List Nat) : (xs ++ ys).drop xs.length = ys := by
  induction xs with
  | nil => rfl
  | cons x rest ih => simp [ih]

/-- Decoding a serialized value followed by arbitrary trailing bytes recovers
the value, like pickle.loads after the STOP opcode. -/
theorem ploads_pdumps_append (v : SValue) (extra : List Nat) :
    ploads (pdumps v ++ extra) = some v := by
  cases v with
  | num n => rfl
  | arr xs =>
      simp only [pdumps, List.cons_append, ploads]
      rw [if_pos (by simp)]
      rw [take_length_append]
  | dict ps =>
      simp only [pdumps, List.cons_append, ploads]
      rw [if_pos (by rw [List.length_append, encPairs_length]; omega)]
      have h : (encPairs ps ++ extra).take (2 * ps.length) = encPairs ps := by
        rw [← encPairs_length ps, take_length_append]
      rw [h, decPairs_encPairs]

theorem ploads_pdumps (v : SValue) : ploads (pdumps v) = some v := by
  have h := ploads_pdumps_append v []
  rwa [List.append_nil] at h

theorem sign_length (payload : List Nat) (k : Nat) :
    (sign payload k).length = SIGNATURE_SIZE_BYTES := by
  simp only [sign, List.length_cons, List.length_replicate, SIGNATURE_SIZE_BYTES]

theorem pubKeyBytesOf_wellformed (k : Nat) : loadPemPublicKey (pubKeyBytesOf k) = some k := rfl

theorem verify_sign (payload : List Nat) (k : Nat) :
    verify payload (sign payload k) (pubKeyBytesOf k) = .ok true := by
  simp [verify, pubKeyBytesOf_wellformed]


theorem take_sign_append (c : List Nat) (k : Nat) :
    (sign c k ++ c).take SIGNATURE_SIZE_BYTES = sign c k := by
  rw [← sign_length c k, take_length_append]

theorem drop_sign_append (c : List Nat) (k : Nat) :
    (sign c k ++ c).drop SIGNATURE_SIZE_BYTES = c := by
  rw [← sign_length c k, drop_length_append]

/- ----------------------------------------------------------------------------
Dict-merge lemmas and the C2 claim.
---------------------------------------------------------------------------- -/

theorem orO_none_right (a : Option Nat) : orO a none = a := by
  cases a <;> rfl

theorem orO_assoc (a b c : Option Nat) : orO (orO a b) c = orO a (orO b c) := by
  cases a <;> cases b <;> rfl

theorem dictLookup_append (a b : List (Nat × Nat)) (q : Nat) :
    dictLookup (a ++ b) q = orO (dictLookup a q) (dictLookup b q) := by
  induction a with
  | nil => simp [dictLookup, orO]
  | cons p rest ih =>
      obtain ⟨k0, v⟩ := p
      by_cases h : q = k0 <;> simp [dictLookup, h, ih, orO]

theorem any_key_eq_isSome (d : List (Nat × Nat)) (k0 : Nat) :
    d.any (fun p => p.1 = k0) = (dictLookup d k0).isSome := by
  induction d with
  | nil => rfl
  | cons p rest ih =>
      obtain ⟨k1, v⟩ := p
      by_cases h : k0 = k1
      · simp [dictLookup, h, ih]
      · have h2 : ¬ (k1 = k0) := fun hc => h hc.symm
        simp [dictLookup, h, h2, ih]

theorem dictLookup_eq_none_of_not_mem_keys (d : List (Nat × Nat)) (k : Nat)
    (h : k ∉ d.map Prod.fst) : dictLookup d k = none := by
  induction d with
  | nil => rfl
  | cons p rest ih =>
      obtain ⟨k1, v⟩ := p
      simp only [List.map_cons, List.mem_cons] at h
      push_neg at h
      simp [dictLookup, h.1, ih h.2]

theorem dictLookup_map_update (d : List (Nat × Nat)) (k0 v0 q : Nat) :
    dictLookup (d.map (fun p => if p.1 = k0 then (p.1, v0) else p)) q
      = if q = k0 then (dictLookup d k0).map (fun _ => v0) else dictLookup d q := by
  induction d with
  | nil => simp [dictLookup]
  | cons p rest ih =>
      obtain ⟨k1, v⟩ := p
      rw [List.map_cons]
      dsimp only
      by_cases h1 : k1 = k0
      · subst h1
        rw [if_pos rfl]
        by_cases h2 : q = k1
        · subst h2
          simp [dictLookup]
        · simp [dictLookup, h2, ih]
      · rw [if_neg h1]
        by_cases h2 : q = k1
        · subst h2
          simp [dictLookup, h1]
        · have h1b : ¬ k0 = k1 := fun hc => h1 hc.symm
          simp [dictLookup, h1, h2, ih, h1b]

theorem dictLookup_dictInsert (d : List (Nat × Nat)) (k0 v0 q : Nat) :
    dictLookup (dictInsert d (k0, v0)) q = if q = k0 then some v0 else dictLookup d q := by
  unfold dictInsert
  by_cases hany : d.any (fun p => p.1 = k0)
  · rw [if_pos hany, dictLookup_map_update]
    by_cases hq : q = k0
    · rw [if_pos hq, if_pos hq]
      have hsome : (dictLookup d k0).isSome := by
        rw [← any_key_eq_isSome]; exact hany
      obtain ⟨v, hv⟩ := Option.isSome_iff_exists.mp hsome
      rw [hv]; rfl
    · rw [if_neg hq, if_neg hq]
  · rw [if_neg hany, dictLookup_append]
    have hnone : dictLookup d k0 = none := by
      have h := any_key_eq_isSome d k0
      rw [Bool.eq_iff_iff] at h
      rcases hv : dictLookup d k0 with _ | v
      · rfl
      · exact absurd (h.mpr (by simp [hv])) hany
    by_cases hq : q = k0
    · subst hq
      rw [hnone]
      simp [dictLookup, orO]
    · simp [dictLookup, hq, orO_none_right]

theorem dictLookup_pyMerge (b : List (Nat × Nat)) :
    ∀ (a : List (Nat × Nat)) (q : Nat), KeysNodup b →
    dictLookup (pyMerge a b) q = orO (dictLookup b q) (dictLookup a q) := by
  induction b with
  | nil => intro a q _; simp [pyMerge, dictLookup, orO]
  | cons p rest ih =>
      intro a q hnd
      obtain ⟨k0, v0⟩ := p
      obtain ⟨hk0, hrest⟩ : k0 ∉ rest.map Prod.fst ∧ KeysNodup rest := by
        have := hnd
        unfold KeysNodup at this
        rw [List.map_cons, List.nodup_cons] at this
        exact this
      have hstep : pyMerge a ((k0, v0) :: rest) = pyMerge (dictInsert a (k0, v0)) rest := rfl
      rw [hstep, ih _ q hrest, dictLookup_dictInsert]
      by_cases hq : q = k0
      · subst hq
        rw [dictLookup_eq_none_of_not_mem_keys rest q hk0]
        simp [dictLookup, orO]
      · simp [dictLookup, hq]

theorem regenerateBuild_lookup (sources : List (Option Decl)) (q : Nat) :
    ∀ init, (∀ o ∈ sources, ∀ d, o = some d → KeysNodup d.content) →
    dictLookup
      (sources.foldl
        (fun build d =>
          match d with
          | none => build
          | some decl => pyMerge build decl.content)
        init) q
      = orO (sourcesLookup sources q) (dictLookup init q) := by
  induction sources with
  | nil => intro init _; simp [sourcesLookup, orO]
  | cons o rest ih =>
      intro init hnd
      have hrest : ∀ o2 ∈ rest, ∀ d, o2 = some d → KeysNodup d.content := by
        intro o2 ho2 d hd
        exact hnd o2 (by simp [ho2]) d hd
      cases o with
      | none =>
          simp only [List.foldl_cons]
          rw [ih init hrest]
          simp [sourcesLookup, declLookup, orO_none_right]
      | some decl =>
          simp only [List.foldl_cons]
          rw [ih _ hrest, dictLookup_pyMerge decl.content init q
            (hnd (some decl) (by simp) decl rfl)]
          rw [show sourcesLookup (some decl :: rest) q
              = orO (sourcesLookup rest q) (dictLookup decl.content q) from rfl]
          rw [orO_assoc]

/-- C2: regenerate() merges the existing declaration sources so that for every
key the merged mapping holds the value from the highest-precedence source
(project file, then project patch override, then user preferences, then system
environment) that defines it, and a lower-precedence source never overwrites
it — the first-seen-wins semantics the spec describes, even though the code
iterates the sources in the opposite order letting later sources win.  Each
parsed TOML source is assumed to have pairwise-distinct keys, as tomllib
guarantees. -/
theorem regenerate_merge_highest_precedence_wins (e : Env) (q : Nat)
    (h1 : ∀ d, e.sysEnv = some d → KeysNodup d.content)
    (h2 : ∀ d, e.userPrefs = some d → KeysNodup d.content)
    (h3 : ∀ d, e.patchToml = some d → KeysNodup d.content)
    (h4 : ∀ d, e.sparkToml = some d → KeysNodup d.content) :
    dictLookup (regenerateBuild e) q = specMergeLookup e q := by
  unfold regenerateBuild
  rw [regenerateBuild_lookup]
  · show orO (sourcesLookup (SPARK_BUILD_DECLARATION_FILES e) q) (dictLookup [] q)
      = specMergeLookup e q
    simp only [SPARK_BUILD_DECLARATION_FILES, sourcesLookup, specMergeLookup, dictLookup]
    cases declLookup e.sparkToml q <;> cases declLookup e.patchToml q <;>
      cases declLookup e.userPrefs q <;> cases declLookup e.sysEnv q <;> rfl
  · intro o ho d hd
    simp only [SPARK_BUILD_DECLARATION_FILES, List.mem_cons, List.mem_singleton,
      List.not_mem_nil, or_false] at ho
    rcases ho with h | h | h | h
    · exact h1 d (by rw [← h, hd])
    · exact h2 d (by rw [← h, hd])
    · exact h3 d (by rw [← h, hd])
    · exact h4 d (by rw [← h, hd])

/-- Witness for C2: with a system-environment source defining keys 1 and 2 and
the project file overriding key 1, the merged mapping takes key 1 from the
project file and key 2 from the environment. -/
theorem regenerate_merge_highest_precedence_wins_witness :
    dictLookup (regenerateBuild { baseEnv with
        sysEnv := some ⟨[(1, 10), (2, 20)], 0⟩,
        sparkToml := some ⟨[(1, 11)], 0⟩ }) 1
      = specMergeLookup { baseEnv with
        sysEnv := some ⟨[(1, 10), (2, 20)], 0⟩,
        sparkToml := some ⟨[(1, 11)], 0⟩ } 1
    ∧ specMergeLookup { baseEnv with
        sysEnv := some ⟨[(1, 10), (2, 20)], 0⟩,
        sparkToml := some ⟨[(1, 11)], 0⟩ } 1 = some 11 := by
  constructor
  · exact regenerate_merge_highest_precedence_wins _ 1
      (by intro d hd; injection hd with h; rw [← h]; unfold KeysNodup; decide)
      (by intro d hd; injection hd)
      (by intro d hd; injection hd)
      (by intro d hd; injection hd with h; rw [← h]; unfold KeysNodup; decide)
  · decide

/- ----------------------------------------------------------------------------
Cache-file layout lemmas and the C3 claim.
---------------------------------------------------------------------------- -/

/-- Closed form of sync when the persisted key material is coherent: some key k
ends up in the keyring with its public key persisted, and the cache file is
overwritten with the signature of the in-memory payload followed by the
payload. -/
theorem syncC_spec (e : Env) (s : CState) (hm : keyMatched e) :
    ∃ k, syncC e s =
      ({ e with keyringPriv := some k, pubKeyFile := some (pubKeyBytesOf k),
                cacheFile := some (sign s.cache k ++ s.cache), cacheMtime := e.now },
       { s with signature := sign s.cache k }) := by
  cases hk : e.keyringPriv with
  | none =>
      refine ⟨e.freshKey, ?_⟩
      simp [syncC, hk, syncWith]
  | some k =>
      refine ⟨k, ?_⟩
      have hp := hm k hk
      simp only [syncC, hk, syncWith, Prod.mk.injEq]
      constructor
      · cases e
        simp_all
      · trivial

/-- A freshly synced environment has a well-signed cache file. -/
theorem wellSignedFile_of_sync (e : Env) (s : CState) (hm : keyMatched e) :
    wellSignedFile (syncC e s).1 := by
  obtain ⟨k, hsync⟩ := syncC_spec e s hm
  refine ⟨sign s.cache k ++ s.cache, pubKeyBytesOf k, ?_, ?_, ?_⟩
  · rw [hsync]
  · rw [hsync]
  · rw [take_sign_append, drop_sign_append]
    exact verify_sign _ _

/-- The environment produced by sync keeps its key material coherent. -/
theorem keyMatched_of_sync (e : Env) (s : CState) (hm : keyMatched e) :
    keyMatched (syncC e s).1 := by
  obtain ⟨k, hsync⟩ := syncC_spec e s hm
  intro k2 hk2
  rw [hsync] at hk2 ⊢
  simp at hk2
  simp [← hk2]

/-- Loading the public key yields an environment whose key material matches,
without touching the declaration sources or the cache file. -/
theorem loadPublicKey_spec (e : Env) (hc : keyConsistent e) :
    keyMatched (loadPublicKey e).1
    ∧ (loadPublicKey e).1.cacheFile = e.cacheFile
    ∧ (loadPublicKey e).1.sparkToml = e.sparkToml
    ∧ (loadPublicKey e).1.pubKeyFile = some (loadPublicKey e).2
    ∧ declStale (loadPublicKey e).1 = declStale e := by
  cases hp : e.pubKeyFile with
  | none =>
      refine ⟨?_, by simp [loadPublicKey, hp], by simp [loadPublicKey, hp],
        by simp [loadPublicKey, hp], by simp [loadPublicKey, hp, declStale,
          SPARK_BUILD_DECLARATION_FILES]⟩
      intro k hk
      simp [loadPublicKey, hp] at hk ⊢
      rw [← hk]
  | some b =>
      refine ⟨?_, by simp [loadPublicKey, hp], by simp [loadPublicKey, hp],
        by simp [loadPublicKey, hp], by simp [loadPublicKey, hp]⟩
      intro k hk
      simp only [loadPublicKey, hp] at hk ⊢
      rcases hc k hk with h | h
      · exact absurd (hp ▸ h) (by simp)
      · exact hp ▸ h

/-- C3: the on-disk cache file always has the layout
[signature: 512 bytes][payload: remaining bytes].  First part: with the cache
file deleted, a coherent persisted key pair and the project file present,
open() followed by close() produces a file whose first 512 bytes verify as a
signature over the remaining bytes under the persisted public key.  Second
part: open() on an existing, fresh cache file splits it at exactly byte 512
into the in-memory signature and payload used for verification. -/
theorem cache_file_layout_signature_512 :
    (∀ (e : Env) (d : Decl), e.cacheFile = none → e.sparkToml = some d → keyConsistent e →
      ∃ ee ss, openC e (initCState false) = Except.ok (ee, ss) ∧
        wellSignedFile (closeC ee ss).1)
    ∧ (∀ (e : Env) (f pb : List Nat), e.cacheFile = some f → e.pubKeyFile = some pb →
        declStale e = false →
        verify (f.drop SIGNATURE_SIZE_BYTES) (f.take SIGNATURE_SIZE_BYTES) pb = Except.ok true →
        ∃ ee ss, openC e (initCState false) = Except.ok (ee, ss) ∧
          ss.signature = f.take SIGNATURE_SIZE_BYTES ∧
          ss.cache = f.drop SIGNATURE_SIZE_BYTES) := by
  constructor
  · intro e d hcf hst hc
    obtain ⟨hm1, hcf1, hst1, hpb1, _⟩ := loadPublicKey_spec e hc
    rw [hcf] at hcf1
    rw [hst] at hst1
    have hopen : openC e (initCState false) =
        regenerateC (loadPublicKey e).1
          { initCState false with opened := true, public_key_bytes := (loadPublicKey e).2 } := by
      simp only [openC, hcf1]
    have hregen : regenerateC (loadPublicKey e).1
        { initCState false with opened := true, public_key_bytes := (loadPublicKey e).2 } =
        Except.ok (syncC (loadPublicKey e).1
          (regenerateTarget (loadPublicKey e).1
            { initCState false with opened := true, public_key_bytes := (loadPublicKey e).2 })) := by
      simp only [regenerateC, hst1]
    refine ⟨_, _, hopen.trans hregen, ?_⟩
    show wellSignedFile (syncC _ _).1
    exact wellSignedFile_of_sync _ _ (keyMatched_of_sync _ _ hm1)
  · intro e f pb hcf hpb hstale hv
    have hl : loadPublicKey e = (e, pb) := by simp [loadPublicKey, hpb]
    refine ⟨e, { initCState false with
        opened := true
        public_key_bytes := pb
        signature := f.take SIGNATURE_SIZE_BYTES
        cache := f.drop SIGNATURE_SIZE_BYTES }, ?_, rfl, rfl⟩
    simp only [openC, hl, hcf, initCState, Bool.false_eq_true, if_false, hstale, hv]

/-- Witness for C3: part one instantiated at the concrete baseEnv with no cache
file, part two at the concrete demoEnv whose file is demoPayload signed by key
1. -/
theorem cache_file_layout_signature_512_witness :
    (∃ ee ss, openC baseEnv (initCState false) = Except.ok (ee, ss) ∧
      wellSignedFile (closeC ee ss).1)
    ∧ (∃ ee ss, openC demoEnv (initCState false) = Except.ok (ee, ss) ∧
        ss.signature = (sign demoPayload 1 ++ demoPayload).take SIGNATURE_SIZE_BYTES ∧
        ss.cache = (sign demoPayload 1 ++ demoPayload).drop SIGNATURE_SIZE_BYTES) := by
  constructor
  · exact cache_file_layout_signature_512.1 baseEnv ⟨[], 0⟩ rfl rfl
      (by intro k hk; right; injection hk with h; rw [← h]; rfl)
  · exact cache_file_layout_signature_512.2 demoEnv (sign demoPayload 1 ++ demoPayload)
      (pubKeyBytesOf 1) rfl rfl (by decide)
      (by rw [take_sign_append, drop_sign_append]; exact verify_sign _ _)

/- ----------------------------------------------------------------------------
Read/write lemmas and the C6, C7, C8 and C10 claims.
---------------------------------------------------------------------------- -/

/-- is_cached on an already-opened cache reduces to the verification check with
its deletion side effect. -/
theorem isCachedC_opened (e : Env) (s : CState) (hop : s.opened = true) :
    isCachedC e s =
      (match verify s.cache s.signature s.public_key_bytes with
       | .error err => .error err
       | .ok true => .ok (e, s, true)
       | .ok false =>
           match e.cacheFile with
           | none => .error .fileNotFound
           | some _ => .ok ({ e with cacheFile := none }, s, false)) := by
  simp [isCachedC, hop]

/-- Verification against a well-formed public key computes the boolean
signature comparison. -/
theorem verify_wellformed (payload sig : List Nat) (k : Nat) :
    verify payload sig (pubKeyBytesOf k) = Except.ok (sig = sign payload k : Bool) := rfl

/-- read on an opened cache whose backing file is present reduces to the
is_cached check followed by the slice or full deserialization. -/
theorem readC_opened_file_present (e : Env) (s : CState) (size : Option Nat) (offset : Nat)
    (hop : s.opened = true) (hcf : ¬ e.cacheFile = none) :
    readC e s size offset =
      (match isCachedC e s with
       | .error err => .error err
       | .ok (e2, s2, cached) =>
           match cached, size with
           | true, some sz =>
               match ploads ((s2.cache.drop offset).take sz) with
               | some v => Except.ok (e2, s2, v)
               | none => Except.error PyErr.unpicklingError
           | _, _ =>
               match ploads s2.cache with
               | some v => Except.ok (e2, s2, v)
               | none => Except.error PyErr.unpicklingError) := by
  unfold readC
  rw [if_neg (by simp [hop]), if_neg hcf]

/-- A sliced read on an opened, present, correctly signed cache deserializes
exactly the requested byte window of the in-memory payload. -/
theorem readC_cached_slice (e : Env) (s : CState) (sz offset k : Nat)
    (hop : s.opened = true) (hcf : ¬ e.cacheFile = none)
    (hpb : s.public_key_bytes = pubKeyBytesOf k)
    (hsig : s.signature = sign s.cache k) :
    readC e s (some sz) offset =
      (match ploads ((s.cache.drop offset).take sz) with
       | some v => Except.ok (e, s, v)
       | none => Except.error PyErr.unpicklingError) := by
  rw [readC_opened_file_present e s (some sz) offset hop hcf,
    isCachedC_opened e s hop, hpb, hsig, verify_sign]

/-- C7: round trip on an opened cache with a backing file present — write(X)
followed by read() with no arguments returns a value structurally equal to X.
This holds regardless of whether the stale signature still verifies: read()
calls is_cached() first (deleting the backing file when verification fails) and
then falls back to deserializing the full in-memory payload, which write(X) set
to the serialized form of X. -/
theorem write_read_roundtrip (e : Env) (s : CState) (x : SValue) (k : Nat) (f : List Nat)
    (hop : s.opened = true) (hcf : e.cacheFile = some f)
    (hpb : s.public_key_bytes = pubKeyBytesOf k) :
    ∃ e2 s2, readC e (writeC s x) none 0 = Except.ok (e2, s2, x) := by
  rw [readC_opened_file_present e (writeC s x) none 0 hop (by simp [hcf]),
    isCachedC_opened e (writeC s x) hop,
    show (writeC s x).public_key_bytes = pubKeyBytesOf k from hpb,
    verify_wellformed]
  cases hdec : ((writeC s x).signature = sign (writeC s x).cache k : Bool) with
  | true =>
      refine ⟨e, writeC s x, ?_⟩
      show (match ploads (writeC s x).cache with
        | some v => Except.ok (e, writeC s x, v)
        | none => Except.error PyErr.unpicklingError) = _
      rw [show (writeC s x).cache = pdumps x from rfl, ploads_pdumps]
  | false =>
      rw [hcf]
      refine ⟨{ e with cacheFile := none }, writeC s x, ?_⟩
      show (match ploads (writeC s x).cache with
        | some v => Except.ok ({ e with cacheFile := none }, writeC s x, v)
        | none => Except.error PyErr.unpicklingError) = _
      rw [show (writeC s x).cache = pdumps x from rfl, ploads_pdumps]

/-- Witness for C7: on the concrete opened demo cache, writing the number 7 and
reading back returns the number 7. -/
theorem write_read_roundtrip_witness :
    ∃ e2 s2, readC demoEnv (writeC demoState (SValue.num 7)) none 0
      = Except.ok (e2, s2, SValue.num 7) :=
  write_read_roundtrip demoEnv demoState (SValue.num 7) 1
    (sign demoPayload 1 ++ demoPayload) rfl rfl rfl

/-- Counterexample for C6: on the opened demo cache with baseline payload of
size S, append(Y) returns length L, but read(L, S) executed immediately (with
no intervening sync) does NOT return Y: the stale signature makes is_cached()
fail inside read, which deletes the backing file and falls back to
deserializing the full payload, yielding the baseline value instead of Y. -/
theorem append_read_offset_unsynced_counterexample :
    (readC demoEnv (appendC demoState (SValue.num 2)).2
        (some (appendC demoState (SValue.num 2)).1) (getCacheSize demoState)).toOption.map
      (fun t => t.2.2) = some (SValue.num 1)
    ∧ SValue.num 1 ≠ SValue.num 2 := by decide

/-- C6 as amended: the offset law holds once the appended payload has been
re-signed by sync() (as happens on close, the way the tests exercise it): with
baseline payload of serialized size S and append(Y) returning L, after sync()
read(S, 0) returns the baseline value and read(L, S) returns Y. -/
theorem append_sync_read_offset_law (e : Env) (s : CState) (a y : SValue) (k : Nat)
    (hop : s.opened = true) (hcache : s.cache = pdumps a)
    (hkr : e.keyringPriv = some k) (hpb : s.public_key_bytes = pubKeyBytesOf k) :
    readC (syncC e (appendC s y).2).1 (syncC e (appendC s y).2).2
        (some (getCacheSize s)) 0
      = Except.ok ((syncC e (appendC s y).2).1, (syncC e (appendC s y).2).2, a)
    ∧ readC (syncC e (appendC s y).2).1 (syncC e (appendC s y).2).2
        (some (appendC s y).1) (getCacheSize s)
      = Except.ok ((syncC e (appendC s y).2).1, (syncC e (appendC s y).2).2, y) := by
  obtain ⟨E, S, hES, h1, h2, h3, h4, h5⟩ :
      ∃ E S, syncC e (appendC s y).2 = (E, S) ∧ S.opened = true ∧
        ¬ E.cacheFile = none ∧ S.public_key_bytes = pubKeyBytesOf k ∧
        S.signature = sign S.cache k ∧ S.cache = s.cache ++ pdumps y := by
    refine ⟨(syncC e (appendC s y).2).1, (syncC e (appendC s y).2).2, rfl, ?_, ?_, ?_, ?_, ?_⟩
    · simp [syncC, hkr, syncWith, appendC, hop]
    · simp [syncC, hkr, syncWith]
    · simp [syncC, hkr, syncWith, appendC, hpb]
    · simp [syncC, hkr, syncWith, appendC]
    · simp [syncC, hkr, syncWith, appendC]
  rw [hES]
  constructor
  · rw [readC_cached_slice E S (getCacheSize s) 0 k h1 h2 h3 h4]
    have hslice : ((S.cache.drop 0).take (getCacheSize s)) = pdumps a := by
      rw [List.drop_zero, h5, show getCacheSize s = s.cache.length from rfl, hcache, ← hcache,
        take_length_append, hcache]
    rw [hslice, ploads_pdumps]
  · rw [readC_cached_slice E S (appendC s y).1 (getCacheSize s) k h1 h2 h3 h4]
    have hslice : ((S.cache.drop (getCacheSize s)).take (appendC s y).1) = pdumps y := by
      rw [h5, show getCacheSize s = s.cache.length from rfl, drop_length_append,
        show (appendC s y).1 = (pdumps y).length from rfl, List.take_length]
    rw [hslice, ploads_pdumps]

/-- Witness for C6 as amended: appending the array [5, 6] to the opened demo
cache and syncing, the offset read at the baseline size reproduces the
baseline value. -/
theorem append_sync_read_offset_law_witness :
    readC (syncC demoEnv (appendC demoState (SValue.arr [5, 6])).2).1
        (syncC demoEnv (appendC demoState (SValue.arr [5, 6])).2).2
        (some (getCacheSize demoState)) 0
      = Except.ok ((syncC demoEnv (appendC demoState (SValue.arr [5, 6])).2).1,
          (syncC demoEnv (appendC demoState (SValue.arr [5, 6])).2).2, SValue.num 1) :=
  (append_sync_read_offset_law demoEnv demoState (SValue.num 1) (SValue.arr [5, 6]) 1
    rfl rfl rfl rfl).1

/-- Counterexample for C8: verify propagates an error instead of returning a
boolean when the public-key bytes are structurally malformed — the except
clause of crypto.verify catches only InvalidSignature, so the ValueError raised
by load_pem_public_key on the empty byte string escapes. -/
theorem verify_malformed_key_propagates :
    verify [0] [0] [] = Except.error PyErr.valueError := rfl

/-- C8 as amended: for every triple whose public-key bytes are well-formed,
verify is boolean-valued — true exactly when the signature matches the payload
under the key, false on any cryptographic mismatch, never an error; malformed
public-key bytes instead propagate an uncaught error. -/
theorem verify_boolean_on_wellformed_key (payload sig pub : List Nat) (k : Nat)
    (hk : loadPemPublicKey pub = some k) :
    (verify payload sig pub = Except.ok true ∨ verify payload sig pub = Except.ok false)
    ∧ (verify payload sig pub = Except.ok true ↔ sig = sign payload k) := by
  unfold verify
  rw [hk]
  constructor
  · by_cases h : sig = sign payload k
    · left
      simp [h]
    · right
      simp [h]
  · constructor
    · intro h
      by_cases h2 : sig = sign payload k
      · exact h2
      · simp [h2] at h
    · intro h
      simp [h]

/-- Witness for C8 as amended: a matching triple under key 3 verifies to true. -/
theorem verify_boolean_on_wellformed_key_witness :
    verify [1] (sign [1] 3) (pubKeyBytesOf 3) = Except.ok true :=
  (verify_boolean_on_wellformed_key [1] (sign [1] 3) (pubKeyBytesOf 3) 3 rfl).2.mpr rfl

set_option maxRecDepth 8192 in
/-- Counterexample for C10: after write() invalidates the stored signature,
the first read(size) deletes the on-disk cache file, but a subsequent
read(size) does NOT raise: it finds the file missing, regenerates it from the
declaration sources, and returns data from the regenerated payload. -/
theorem second_read_after_write_not_raising :
    (readC demoEnv (writeC demoState (SValue.num 9)) (some 4) 0).toOption.map
      (fun t => t.1.cacheFile.isSome) = some false
    ∧ ((readC demoEnv (writeC demoState (SValue.num 9)) (some 4) 0).toOption.bind
        (fun t => (readC t.1 t.2.1 (some 4) 0).toOption)).isSome = true := by decide

/-- C10 as amended: if the in-memory payload fails verification while the
on-disk cache file is absent, is_cached() raises an uncaught file-not-found
error from its deletion side effect instead of returning False; read(size),
however, never surfaces that error when it finds the backing file missing —
it regenerates the cache (restoring a valid signature) first, so a read
following the file-deleting read succeeds rather than raising. -/
theorem is_cached_missing_file_raises :
    (∀ (e : Env) (s : CState), s.opened = true →
      verify s.cache s.signature s.public_key_bytes = Except.ok false →
      e.cacheFile = none →
      isCachedC e s = Except.error PyErr.fileNotFound)
    ∧ (∀ (e : Env) (s : CState) (size : Option Nat) (offset k : Nat) (d : Decl),
        s.opened = true → e.cacheFile = none → e.keyringPriv = some k →
        s.public_key_bytes = pubKeyBytesOf k → e.sparkToml = some d →
        readC e s size offset ≠ Except.error PyErr.fileNotFound) := by
  constructor
  · intro e s hop hv hcf
    rw [isCachedC_opened e s hop, hv, hcf]
  · intro e s size offset k d hop hcf hkr hpb hst
    have hregen : regenerateC e s = Except.ok (syncC e (regenerateTarget e s)) := by
      simp only [regenerateC, hst]
    obtain ⟨E, S, hES, h1, h2, h3, h4⟩ :
        ∃ E S, syncC e (regenerateTarget e s) = (E, S) ∧ S.opened = true ∧
          ¬ E.cacheFile = none ∧ S.public_key_bytes = pubKeyBytesOf k ∧
          S.signature = sign S.cache k := by
      refine ⟨(syncC e (regenerateTarget e s)).1, (syncC e (regenerateTarget e s)).2,
        rfl, ?_, ?_, ?_, ?_⟩
      · simp [syncC, hkr, syncWith, regenerateTarget]
      · simp [syncC, hkr, syncWith]
      · simp [syncC, hkr, syncWith, regenerateTarget, hpb]
      · simp [syncC, hkr, syncWith, regenerateTarget]
    have hredirect : readC e s size offset = readC E S size offset := by
      conv_rhs => rw [readC_opened_file_present E S size offset h1 h2]
      unfold readC
      rw [if_neg (by simp [hop]), if_pos hcf, hregen, hES]
    rw [hredirect]
    cases size with
    | none =>
        rw [readC_opened_file_present E S none offset h1 h2,
          isCachedC_opened E S h1, h3, h4, verify_sign]
        show (match ploads S.cache with
          | some v => Except.ok (E, S, v)
          | none => Except.error PyErr.unpicklingError) ≠ _
        cases hpl : ploads S.cache with
        | none => simp
        | some v => simp
    | some sz =>
        rw [readC_cached_slice E S sz offset k h1 h2 h3 h4]
        cases hpl : ploads ((S.cache.drop offset).take sz) with
        | none => simp
        | some v => simp

/-- Witness for C10 as amended: on the concrete base environment with no cache
file and a stale in-memory signature, is_cached() raises FileNotFoundError,
while read(size) on the same state succeeds through regeneration. -/
theorem is_cached_missing_file_raises_witness :
    isCachedC baseEnv (writeC demoState (SValue.num 9)) = Except.error PyErr.fileNotFound
    ∧ readC baseEnv (writeC demoState (SValue.num 9)) (some 4) 0
        ≠ Except.error PyErr.fileNotFound := by
  constructor
  · exact is_cached_missing_file_raises.1 baseEnv (writeC demoState (SValue.num 9))
      rfl rfl rfl
  · exact is_cached_missing_file_raises.2 baseEnv (writeC demoState (SValue.num 9))
      (some 4) 0 1 ⟨[], 0⟩ rfl rfl rfl rfl rfl

/- ----------------------------------------------------------------------------
Scheduler lemmas.
---------------------------------------------------------------------------- -/

theorem submitAll_eq (s : BExec) (cmds : List Subcommand) :
    submitAll s cmds = { s with subcommands := s.subcommands ++ cmds } := by
  induction cmds generalizing s with
  | nil => simp [submitAll]
  | cons c rest ih =>
      show submitAll (submit s c) rest = _
      rw [ih]
      simp [submit]

/-- Closed form of the spawn loop when every spawn attempt succeeds: the
counter advances by one per spawn, the oldest pending subcommands are consumed
in order, each spawn is logged with its counter value, and the returned process
ids are folded into the running dict. -/
theorem startLoop_spec (spawn : Nat → Option Nat) (k : Nat) :
    ∀ (i : Nat) (s : BExec) (log : List (Nat × Subcommand)),
    k ≤ s.subcommands.length →
    (∀ j, j < k → (spawn (i + j)).isSome) →
    startLoop spawn k i s log =
      ⟨{ s with
          subcommands := s.subcommands.drop k,
          counter := s.counter + k,
          processes := (List.range' i k).foldl
            (fun ps j => dictInsertPid ps ((spawn j).getD 0)) s.processes },
        log ++ List.zip (List.range' (s.counter + 1) k) (s.subcommands.take k),
        none, false⟩ := by
  induction k with
  | zero =>
      intro i s log _ _
      simp [startLoop]
  | succ k ih =>
      intro i s log hk hs
      match hsub : s.subcommands with
      | [] => rw [hsub] at hk; simp at hk
      | cmd :: rest =>
          have hsome : (spawn i).isSome := by
            have := hs 0 (Nat.succ_pos k)
            simpa using this
          obtain ⟨pid, hpid⟩ := Option.isSome_iff_exists.mp hsome
          have hstep : startLoop spawn (k + 1) i s log =
              startLoop spawn k (i + 1)
                { s with subcommands := rest, counter := s.counter + 1,
                         processes := dictInsertPid s.processes pid }
                (log ++ [(s.counter + 1, cmd)]) := by
            simp only [startLoop, hsub, hpid]
          rw [hstep, ih]
          · have hrange : List.range' i (k + 1) = i :: List.range' (i + 1) k :=
              List.range'_succ i k 1
            have hrange2 : List.range' (s.counter + 1) (k + 1) =
                (s.counter + 1) :: List.range' (s.counter + 1 + 1) k :=
              List.range'_succ (s.counter + 1) k 1
            simp only [hsub, hrange, hrange2, List.foldl_cons, hpid, Option.getD_some,
              List.drop_succ_cons, List.take_succ_cons, List.zip_cons_cons,
              List.append_assoc, List.singleton_append]
            rw [show s.counter + 1 + k = s.counter + (k + 1) from by omega]
          · have := hk
            rw [hsub] at this
            simpa using this
          · intro j hj
            rw [show i + 1 + j = i + (j + 1) from by omega]
            exact hs (j + 1) (by omega)

theorem additionalBuilderJobs_toNat (loadavg : ℚ) (s : BExec) :
    (additionalBuilderJobs loadavg s).toNat =
      min (liveCeiling loadavg s - s.processes.length) s.subcommands.length := by
  unfold additionalBuilderJobs
  rw [Nat.min_def]
  split_ifs with h1 h2 h3 <;> omega

/-- Inserting pairwise-distinct process ids, none of which is already running,
grows the running dict by exactly their number. -/
theorem length_foldl_dictInsertPid (pid : Nat → Nat) (js : List Nat) :
    ∀ (ps : List Nat),
    (∀ j ∈ js, pid j ∉ ps) →
    js.Pairwise (fun a b => pid a ≠ pid b) →
    (js.foldl (fun acc j => dictInsertPid acc (pid j)) ps).length = ps.length + js.length := by
  induction js with
  | nil => intro ps _ _; simp
  | cons j rest ih =>
      intro ps hmem hpair
      have hnotin : pid j ∉ ps := hmem j (by simp)
      have hins : dictInsertPid ps (pid j) = ps ++ [pid j] := by
        simp [dictInsertPid, hnotin]
      rw [List.foldl_cons, hins, ih (ps ++ [pid j])]
      · simp; omega
      · intro a ha
        simp only [List.mem_append, List.mem_singleton]
        rintro (h | h)
        · exact hmem a (by simp [ha]) h
        · exact (List.pairwise_cons.mp hpair).1 a ha h.symm
      · exact (List.pairwise_cons.mp hpair).2

/- ----------------------------------------------------------------------------
Scheduler claims.
---------------------------------------------------------------------------- -/

/-- C1: the claim states that iterating as_completed() to exhaustion yields one
(processId, exitCode) pair per submitted subcommand, calling start() before
each pull, and ends only when both the pending queue and the running set are
empty.  The code calls start() exactly once, before the wait loop, so with
jobs = 1 and two submitted subcommands the iteration yields a single pair and
stops while one subcommand is still pending and the work is not complete. -/
theorem asCompleted_single_start_drops_pending :
    (asCompleted (fun i => some (100 + i)) (fun _ => 0) (fun _ => 0) 0
        (submitAll (mkBExec 2 1 1) [[10], [11]])).toOption.map
      (fun r => (r.1, r.2.subcommands, isWorkComplete r.2))
      = some ([(100, 0)], [[11]], false) := by decide

/-- C4: the claim states that a launch failure reports the dedicated exit code
and invokes shutdown().  In the code, perror exits the interpreter with
EXIT_NO_SUCH_SUBCOMMAND before the self.shutdown() call on the next line can
run: the SystemExit propagates out of start() with the shutdown call never
reached, the pending queue not discarded, and the failed subcommand's progress
line already printed. -/
theorem start_launch_failure_exits_without_shutdown :
    (fun r => (r.exited, r.shutdownRan, r.state.subcommands, r.log))
      (start (fun _ => none) 0 (submitAll (mkBExec 2 2 2) [[10], [11]]))
      = (some EXIT_NO_SUCH_SUBCOMMAND, false, [[11]], [(1, [10])]) := by decide

/-- C5: start() computes the live concurrency ceiling as 1 when the load
sample exceeds the configured threshold and as the configured job count
otherwise, and — reading the claim's subtraction as the truncated subtraction
of counts — spawns min(ceiling - runningCount, queuedCount) new children:
that many progress lines are printed, the running-process count grows by
exactly that number, and (when the early-return guard does not fire)
running_jobs is set to the ceiling.  The spawn oracle is assumed to succeed
with fresh, pairwise-distinct process ids for the spawned batch. -/
theorem start_spawns_min_ceiling_queue
    (spawn : Nat → Option Nat) (loadavg : ℚ) (s : BExec)
    (hsp : ∀ j, j < min (liveCeiling loadavg s - s.processes.length) s.subcommands.length →
      (spawn j).isSome)
    (hfresh : ∀ j, j < min (liveCeiling loadavg s - s.processes.length) s.subcommands.length →
      (spawn j).getD 0 ∉ s.processes)
    (hinj : ∀ j1 j2,
      j1 < min (liveCeiling loadavg s - s.processes.length) s.subcommands.length →
      j2 < min (liveCeiling loadavg s - s.processes.length) s.subcommands.length →
      j1 ≠ j2 → (spawn j1).getD 0 ≠ (spawn j2).getD 0) :
    (start spawn loadavg s).log.length =
      min (liveCeiling loadavg s - s.processes.length) s.subcommands.length
    ∧ (start spawn loadavg s).state.processes.length =
      s.processes.length +
        min (liveCeiling loadavg s - s.processes.length) s.subcommands.length
    ∧ (s.processes.length ≤ s.jobs →
        (start spawn loadavg s).state.running_jobs = liveCeiling loadavg s) := by
  by_cases hguard : s.processes.length > s.jobs
  · have hzero : min (liveCeiling loadavg s - s.processes.length) s.subcommands.length = 0 := by
      unfold liveCeiling
      split_ifs <;> omega
    unfold start
    rw [if_pos hguard, hzero]
    refine ⟨rfl, by simp, fun hle => absurd hle (by omega)⟩
  · unfold start
    rw [if_neg hguard, additionalBuilderJobs_toNat]
    have hmin : min (liveCeiling loadavg s - s.processes.length) s.subcommands.length ≤
        s.subcommands.length := Nat.min_le_right _ _
    rw [startLoop_spec spawn _ 0 _ [] (by simpa using hmin)
      (by intro j hj; simpa using hsp j (by simpa using hj))]
    refine ⟨?_, ?_, fun _ => rfl⟩
    · simp only [List.nil_append, List.length_zip, List.length_range', List.length_take]
      omega
    · simp only []
      rw [length_foldl_dictInsertPid]
      · simp
      · intro j hj
        have hj2 : j < min (liveCeiling loadavg s - s.processes.length)
            s.subcommands.length := by
          have := List.mem_range'.mp hj
          obtain ⟨idx, hidx, hidx2⟩ := this
          omega
        simpa using hfresh j hj2
      · refine (List.pairwise_lt_range' 0 _).imp_of_mem ?_
        intro a b ha hb hab
        have ha2 : a < min (liveCeiling loadavg s - s.processes.length)
            s.subcommands.length := by
          obtain ⟨idx, hidx, hidx2⟩ := List.mem_range'.mp ha
          omega
        have hb2 : b < min (liveCeiling loadavg s - s.processes.length)
            s.subcommands.length := by
          obtain ⟨idx, hidx, hidx2⟩ := List.mem_range'.mp hb
          omega
        exact hinj a b ha2 hb2 (by omega)

/-- Witness for C5, instantiating the claim's own scenario: jobs = 8, five
queued subcommands, no running process, and a load sample of 9 against a
threshold of 8 — a single call to start() brings exactly 1 process to the
running state. -/
theorem start_spawns_min_ceiling_queue_witness :
    (start (fun j => some (100 + j)) 9
      (submitAll (mkBExec 5 8 8) [[1], [2], [3], [4], [5]])).state.processes.length = 1 := by
  have h := start_spawns_min_ceiling_queue (fun j => some (100 + j)) 9
    (submitAll (mkBExec 5 8 8) [[1], [2], [3], [4], [5]])
    (by intro j hj; simp)
    (by intro j hj; simp [submitAll_eq, mkBExec])
    (by intro j1 j2 h1 h2 hne; simp; omega)
  rw [h.2.1]
  decide

/-- C9: subcommands are started in strict FIFO submission order — for an
executor that received its subcommands through submit(), the progress log of a
successful start() pairs consecutive counter values 1, 2, ... with the oldest
submitted subcommands in submission order, the counter reported by progress()
equals the number of spawns, and the still-pending queue is the submitted list
with its oldest elements removed. -/
theorem start_fifo_order_counter
    (cmds : List Subcommand) (total jobs : Nat) (la loadavg : ℚ) (spawn : Nat → Option Nat)
    (r : StartResult) (hr : r = start spawn loadavg (submitAll (mkBExec total jobs la) cmds))
    (hsp : ∀ j, (spawn j).isSome) :
    r.log = List.zip (List.range' 1 r.log.length) (cmds.take r.log.length)
    ∧ (progress r.state).1 = r.log.length
    ∧ r.state.subcommands = cmds.drop r.log.length := by
  subst hr
  rw [submitAll_eq]
  unfold start
  rw [if_neg (by simp [mkBExec])]
  rw [additionalBuilderJobs_toNat]
  have hmin : min (liveCeiling loadavg { mkBExec total jobs la with subcommands := [] ++ cmds }
      - ({ mkBExec total jobs la with subcommands := [] ++ cmds } : BExec).processes.length)
      ({ mkBExec total jobs la with subcommands := [] ++ cmds } : BExec).subcommands.length ≤
      cmds.length := by
    exact Nat.min_le_right _ _
  rw [startLoop_spec spawn _ 0 _ [] (by simpa [mkBExec] using hmin)
    (by intro j hj; exact hsp (0 + j))]
  simp only [mkBExec, List.nil_append, progress]
  refine ⟨?_, ?_, ?_⟩ <;>
    · simp [List.length_zip, List.length_range', List.length_take]
      try omega

/-- Witness for C9: three submitted subcommands, jobs = 3, load below the
threshold — the log pairs counters 1, 2, 3 with the subcommands in submission
order and the queue is drained. -/
theorem start_fifo_order_counter_witness :
    (start (fun j => some (50 + j)) 0 (submitAll (mkBExec 3 3 3) [[7], [8], [9]])).log =
      List.zip (List.range' 1
        (start (fun j => some (50 + j)) 0 (submitAll (mkBExec 3 3 3) [[7], [8], [9]])).log.length)
        ([[7], [8], [9]].take
          (start (fun j => some (50 + j)) 0
            (submitAll (mkBExec 3 3 3) [[7], [8], [9]])).log.length) := by
  exact (start_fifo_order_counter [[7], [8], [9]] 3 3 3 0 (fun j => some (50 + j)) _ rfl
    (by intro j; simp)).1

end Spark
